import Mathlib

/- Shallow embedding of safestride's route-risk code (src/api/build_risk.py and
   src/api/main.py).  Python floats are modelled as exact rationals (ℚ); the
   claims under study concern control flow, sampling structure and comparisons,
   not floating-point rounding.  Python code that can raise an uncaught
   exception is modelled with Option/Except. -/

/-- Time window literal "day" | "evening" | "night" (AddressRouteReq.time_window). -/
inductive Window
  | day
  | evening
  | night
deriving DecidableEq, Repr

/-- CELL_DEG = 0.0016 (build_risk.py line 11). -/
def CELL_DEG : ℚ := 16 / 10000

/-- BUFFER_M_DEFAULT = 120.0 (build_risk.py line 12). -/
def BUFFER_M_DEFAULT : ℚ := 120

/-- Python `range(start, stop, step)` for natural bounds and non-negative step
(the sources only call it with positive step; step 0 raises in Python and is
mapped to the empty list here, the branch is never reached). -/
def pyRange (first stop step : ℕ) : List ℕ :=
  if step = 0 then []
  else (List.range ((stop - first + step - 1) / step)).map (fun k => first + k * step)

/-- risk_at_safe (build_risk.py lines 31-35, main.py lines 15-19).  The wrapped
helper `risk_at` is not defined in either source file, so the call raises
NameError, which the blanket `except Exception` swallows; the function
therefore returns 0.0 on every input. -/
def risk_at_safe (_lat _lon : ℚ) (_w : Window) : ℚ := 0

/-- route_avg_risk (build_risk.py lines 158-171, main.py lines 55-68),
parametric in the risk oracle `riskAt lat lon window` that stands for
`risk_at_safe` (the loop body calls `risk_at_safe(lat, lon, window)` on the
coordinate pair `lon, lat = route_coords[i]`).  Route points are (lon, lat)
pairs. -/
def route_avg_risk (riskAt : ℚ → ℚ → Window → ℚ) (route : List (ℚ × ℚ)) (w : Window) : ℚ :=
  let npts := route.length
  if npts = 0 then 0
  else
    let step := max 1 (npts / 60)
    let idxs := pyRange 0 npts step
    let total := (idxs.map (fun i => riskAt (route.getD i (0, 0)).2 (route.getD i (0, 0)).1 w)).sum
    let n := idxs.length
    if n = 0 then 0 else total / n

/-- The enumerate-and-update loop of worst_point (build_risk.py lines 176-179):
state is (worst_i, worst_r, worst_ll), updated when `r > worst_r`. -/
def worstLoop (riskAt : ℚ → ℚ → Window → ℚ) (w : Window) :
    List (ℚ × ℚ) → ℕ → ℕ × ℚ × (ℚ × ℚ) → ℕ × ℚ × (ℚ × ℚ)
  | [], _, st => st
  | p :: rest, i, st =>
    worstLoop riskAt w rest (i + 1)
      (if st.2.1 < riskAt p.2 p.1 w then (i, riskAt p.2 p.1 w, p) else st)

/-- worst_point (build_risk.py lines 173-180, main.py lines 70-77).  The
initial state reads `route_coords[0]`, which raises IndexError on an empty
route; the raise is modelled as `none`. -/
def worst_point (riskAt : ℚ → ℚ → Window → ℚ) (route : List (ℚ × ℚ)) (w : Window) :
    Option (ℕ × ℚ × (ℚ × ℚ)) :=
  match route with
  | [] => none
  | p0 :: _ => some (worstLoop riskAt w route 0 (0, -1, p0))

/-- Python float `x % 360.0` for the bearing arithmetic (the divisor is
positive, so the result is `x - 360*⌊x/360⌋`). -/
def pymod360 (x : ℚ) : ℚ := x - 360 * ⌊x / 360⌋

/-- Opaque embedding of the two spherical-trigonometry kernels
bearing_between (build_risk.py lines 184-191) and offset_point (lines
193-201).  Their bodies are Float sin/cos/atan2/asin computations whose
transcendental values the claims do not depend on; only their dataflow is
modelled, so they are carried as parameters.  bearing_between takes two
(lon, lat) points; offset_point takes lat, lon, bearing_deg, dist_m and
returns (lat, lon). -/
structure SphereOps where
  bearing_between : (ℚ × ℚ) → (ℚ × ℚ) → ℚ
  offset_point : ℚ → ℚ → ℚ → ℚ → ℚ × ℚ

/-- propose_detour_waypoint (build_risk.py lines 203-218, main.py lines
100-121).  Calls worst_point (IndexError on an empty route propagates, hence
`none`), picks neighbor index `idx-1 if idx > 0 else min(idx+1, len-1)`,
offsets perpendicular to the local bearing on both sides and returns the
lower-risk side as a (lon, lat) waypoint, the `(br+90)%360` side on ties. -/
def propose_detour_waypoint (ops : SphereOps) (riskAt : ℚ → ℚ → Window → ℚ)
    (route : List (ℚ × ℚ)) (w : Window) (offset_m : ℚ) : Option (ℚ × ℚ) :=
  match worst_point riskAt route w with
  | none => none
  | some (idx, _, wll) =>
    let j : ℕ := if 0 < idx then idx - 1 else min (idx + 1) (route.length - 1)
    let nb := route.getD j (0, 0)
    let br := ops.bearing_between (wll.1, wll.2) (nb.1, nb.2)
    let leftB := pymod360 (br + 90)
    let rightB := pymod360 (br + 270)
    let lft := ops.offset_point wll.2 wll.1 leftB offset_m
    let rgt := ops.offset_point wll.2 wll.1 rightB offset_m
    some (if riskAt lft.1 lft.2 w ≤ riskAt rgt.1 rgt.2 w
          then (lft.2, lft.1) else (rgt.2, rgt.1))

/-- Cell keys are the six-decimal strings `f"{lat_bin:.6f}_{lon_bin:.6f}"`;
they are modelled by the pair of integers of micro-degrees those fixed-point
strings print, which encodes the same information. -/
abbrev Key := ℤ × ℤ

/-- Python round-half-to-even of a rational to an integer (the rounding used
by `%.6f` formatting and by `round`). -/
def round_half_even (q : ℚ) : ℤ :=
  let f := ⌊q⌋
  let frac := q - (f : ℚ)
  if frac < 1 / 2 then f
  else if (1 : ℚ) / 2 < frac then f + 1
  else if f % 2 = 0 then f else f + 1

/-- One `%.6f` component: micro-degrees, rounded half-to-even. -/
def key6 (q : ℚ) : ℤ := round_half_even (q * 1000000)

/-- _cell_key_from_bin (build_risk.py lines 41-42). -/
def cell_key_from_bin (latBin lonBin : ℚ) : Key := (key6 latBin, key6 lonBin)

/-- _bin_for (build_risk.py lines 44-48): floor both components to the
lower-left corner of the containing cell. -/
def bin_for (lat lon : ℚ) : ℚ × ℚ :=
  (⌊lat / CELL_DEG⌋ * CELL_DEG, ⌊lon / CELL_DEG⌋ * CELL_DEG)

/-- Python `range(-r, r + 1)` over the integers. -/
def intRange (r : ℤ) : List ℤ := (List.range (2 * r.toNat + 1)).map (fun k => (k : ℤ) - r)

/-- The cell keys enumerated for one sample by the di/dj double loop
(build_risk.py lines 107-114); the sample `p` is a (lon, lat) pair and
`lat_bin, lon_bin = _bin_for(lat, lon)`. -/
def neighborhoodKeys (r : ℤ) (p : ℚ × ℚ) : List Key :=
  (intRange r).flatMap (fun (di : ℤ) =>
    (intRange r).map (fun (dj : ℤ) =>
      cell_key_from_bin ((bin_for p.2 p.1).1 + (di : ℚ) * CELL_DEG)
                        ((bin_for p.2 p.1).2 + (dj : ℚ) * CELL_DEG)))

/-- Dictionary lookup `cells[key]` / `key in cells` on an association list. -/
def lookupKey (k : Key) : List (Key × ℤ) → Option ℤ
  | [] => none
  | kv :: rest => if kv.1 = k then some kv.2 else lookupKey k rest

/-- One iteration of the seen/total loop body (build_risk.py lines 114-119):
skip a seen key; count and mark a key present in `cells`. -/
def visitKey (cells : List (Key × ℤ)) (st : List Key × ℤ) (k : Key) : List Key × ℤ :=
  if k ∈ st.1 then st
  else
    match lookupKey k cells with
    | some v => (k :: st.1, st.2 + v)
    | none => st

/-- The keys that contribute severity, in first-encounter order: a key enters
exactly when it is not yet seen and is present in `cells`. -/
def hitKeys (cells : List (Key × ℤ)) : List Key → List Key → List Key
  | [], _ => []
  | k :: ks, seen =>
    if k ∈ seen then hitKeys cells ks seen
    else
      match lookupKey k cells with
      | some _ => k :: hitKeys cells ks (k :: seen)
      | none => hitKeys cells ks seen

/-- SEV_INDEX (build_risk.py line 39): per-window dict from cell key to
integer severity sum, modelled as association lists. -/
structure SevIndex where
  day : List (Key × ℤ)
  evening : List (Key × ℤ)
  night : List (Key × ℤ)
deriving DecidableEq, Repr

/-- `SEV_INDEX.get(window, {})` — total here because `Window` has exactly the
three dictionary keys. -/
def SevIndex.get : SevIndex → Window → List (Key × ℤ)
  | idx, Window.day => idx.day
  | idx, Window.evening => idx.evening
  | idx, Window.night => idx.night

/-- The module-initial state `{"day": {}, "evening": {}, "night": {}}`. -/
def emptySevIndex : SevIndex := ⟨[], [], []⟩

/-- severity_for_route (build_risk.py lines 81-122).  `cell_m` carries the
value of the Float constant `_approx_cell_size_m()` (lines 50-55), whose
cosine-based value is not modelled; the claims about this function are settled
for an arbitrary value of it. -/
def severity_for_route (sevIndex : SevIndex) (cell_m : ℚ) (route : List (ℚ × ℚ))
    (dist_km : ℚ) (w : Window) (buffer_m : ℚ) : ℤ × ℚ :=
  if route = [] then (0, 0)
  else
    let cells := sevIndex.get w
    if cells = [] then (0, 0)
    else
      let npts := route.length
      let stride := max 1 (npts / 300)
      let samples := (pyRange 0 npts stride).map (fun i => route.getD i (0, 0))
      let r : ℤ := max 1 ⌈buffer_m / max 1 cell_m⌉
      let allKeys := samples.flatMap (neighborhoodKeys r)
      let sev_total := (allKeys.foldl (visitKey cells) ([], 0)).2
      (sev_total, (sev_total : ℚ) / max dist_km (1 / 1000000))

/-- Outcomes of `open(path)` + CSV iteration that the loader can see. -/
inductive ReadErr
  | fileNotFound
  | permissionDenied
deriving DecidableEq, Repr

/-- One CSV row of risk_cells.csv with its typed fields; `window` is `none`
when the column is absent (`row.get("window")`). -/
structure CsvRow where
  window : Option String
  lat : ℚ
  lon : ℚ
  sev_sum : ℤ
deriving DecidableEq

/-- `(row.get("window") or "day").strip()`: a missing column or empty string
falls back to "day" (rows are modelled as already whitespace-stripped). -/
def normWin (s : Option String) : String :=
  match s with
  | none => "day"
  | some t => if t = "" then "day" else t

/-- `SEV_INDEX[win][key] = SEV_INDEX[win].get(key, 0) + sev_sum`. -/
def updAssoc (m : List (Key × ℤ)) (k : Key) (v : ℤ) : List (Key × ℤ) :=
  match m with
  | [] => [(k, v)]
  | kv :: rest => if kv.1 = k then (kv.1, kv.2 + v) :: rest else kv :: updAssoc rest k v

/-- The per-row body of the loader loop (build_risk.py lines 63-72),
including the `if win not in SEV_INDEX: continue` guard. -/
def addRow (idx : SevIndex) (row : CsvRow) : SevIndex :=
  let win := normWin row.window
  let key := cell_key_from_bin row.lat row.lon
  if win = "day" then { idx with day := updAssoc idx.day key row.sev_sum }
  else if win = "evening" then { idx with evening := updAssoc idx.evening key row.sev_sum }
  else if win = "night" then { idx with night := updAssoc idx.night key row.sev_sum }
  else idx

/-- load_severity_index (build_risk.py lines 57-75).  The argument models the
outcome of `open(path)` and row iteration: the parsed rows, or the exception
raised.  Only FileNotFoundError is caught (resetting to the empty index); any
other error — e.g. PermissionError from an unreadable file — propagates. -/
def load_severity_index (input : Except ReadErr (List CsvRow)) : Except ReadErr SevIndex :=
  match input with
  | .ok rows => .ok (rows.foldl addRow emptySevIndex)
  | .error .fileNotFound => .ok emptySevIndex
  | .error .permissionDenied => .error .permissionDenied

/-- Candidate origin tag: the "orig" / "detour" string of the scored tuple. -/
inductive Tag
  | orig
  | detour
deriving DecidableEq, Repr

/-- One route from the directions collaborator: GeoJSON coordinates as
(lon, lat) pairs, and a distance in meters. -/
structure RouteData where
  geometry : List (ℚ × ℚ)
  distance : ℚ
deriving DecidableEq

/-- The scored tuple ("orig"/"detour", score, dist_km, r_avg, geom)
(build_risk.py line 264, main.py line 158). -/
structure Candidate where
  tag : Tag
  score : ℚ
  dist_km : ℚ
  r_avg : ℚ
  geom : List (ℚ × ℚ)
deriving DecidableEq

/-- The scoring loop body: `dist_km = r["distance"]/1000.0`;
`r_avg = route_avg_risk(geom, window)`;
`score = dist_km*0.7 + r_avg*alpha*0.3`. -/
def scoreRoute (riskAt : ℚ → ℚ → Window → ℚ) (w : Window) (alpha : ℚ) (tag : Tag)
    (rd : RouteData) : Candidate :=
  let dist_km := rd.distance / 1000
  let r_avg := route_avg_risk riskAt rd.geometry w
  ⟨tag, dist_km * (7 / 10) + r_avg * alpha * (3 / 10), dist_km, r_avg, rd.geometry⟩

/-- Comparison on the sort key `lambda x: x[1]` (the score). -/
def scoreLE (a b : Candidate) : Prop := a.score ≤ b.score

instance : DecidableRel scoreLE := fun a b => inferInstanceAs (Decidable (a.score ≤ b.score))

/-- `sorted(scored, key=lambda x: x[1])`: Python's sort is stable and
ascending; insertion sort on the non-strict key comparison is the same stable
sort. -/
def sortByScore (l : List Candidate) : List Candidate := l.insertionSort scoreLE

/-- The request fields the core logic reads (AddressRouteReq minus the two
address strings, which only feed geocoding). -/
structure ReqParams where
  time_window : Window
  alpha : ℚ
  risk_threshold : ℚ
  detour_offset_m : ℚ
  buffer_m : ℚ
deriving DecidableEq

/-- The two ways route_by_addresses can fail after geocoding: the explicit
HTTPException 404 when no routes come back, and the uncaught IndexError from
propose_detour_waypoint on an empty best-candidate geometry. -/
inductive CoreErr
  | noRoute
  | indexError
deriving DecidableEq, Repr

/-- The up-to-3 scored original candidates (`for r in routes[:3]`). -/
def origPool (riskAt : ℚ → ℚ → Window → ℚ) (req : ReqParams)
    (routes : List RouteData) : List Candidate :=
  (routes.take 3).map (scoreRoute riskAt req.time_window req.alpha Tag.orig)

/-- The up-to-3 scored detour candidates (`for r in routes2[:3]`) obtained by
the one extra directions call with coordinate list `call`. -/
def detourPool (riskAt : ℚ → ℚ → Window → ℚ) (req : ReqParams)
    (directions2 : List (ℚ × ℚ) → List RouteData) (call : List (ℚ × ℚ)) : List Candidate :=
  ((directions2 call).take 3).map (scoreRoute riskAt req.time_window req.alpha Tag.detour)

/-- Steps 2-5 of route_by_addresses (build_risk.py lines 252-282, main.py
lines 146-177), shared verbatim by the two files: score up to 3 originals,
re-request through one proposed waypoint when the best original's average risk
reaches the threshold, and pick the stable-sort minimum of the pool.  The
external directions service is the parameter `directions2` (only its one
potential detour call happens here; the original-routes call already happened
and is the `routes` argument).  Returns the chosen candidate, the full scored
pool, and the coordinate list of the detour directions call if one was made. -/
def route_core (ops : SphereOps) (riskAt : ℚ → ℚ → Window → ℚ) (req : ReqParams)
    (s e : ℚ × ℚ) (routes : List RouteData)
    (directions2 : List (ℚ × ℚ) → List RouteData) :
    Except CoreErr (Candidate × List Candidate × Option (List (ℚ × ℚ))) :=
  if routes = [] then .error .noRoute
  else
    match (sortByScore (origPool riskAt req routes)).head? with
    | none => .error .noRoute
    | some bestOrig =>
      if req.risk_threshold ≤ bestOrig.r_avg then
        match propose_detour_waypoint ops riskAt bestOrig.geom req.time_window
            req.detour_offset_m with
        | none => .error .indexError
        | some wp =>
          let pool := origPool riskAt req routes ++
            detourPool riskAt req directions2 [s, wp, e]
          match (sortByScore pool).head? with
          | none => .error .noRoute
          | some best => .ok (best, pool, some [s, wp, e])
      else .ok (bestOrig, origPool riskAt req routes, none)

/-- `round(x, 3)` on a Python float: half-to-even at three decimals. -/
def py_round3 (q : ℚ) : ℚ := (round_half_even (q * 1000) : ℚ) / 1000

/-- RouteResp: geometry as Step(lat, lon) pairs, distance_km, safety_score. -/
structure RouteResp where
  geometry : List (ℚ × ℚ)
  distance_km : ℚ
  safety_score : ℚ
deriving DecidableEq

/-- route_by_addresses of build_risk.py (lines 238-294): select, then compute
the integer severity score within the buffer around the final route and return
it as safety_score. -/
def route_by_addresses (ops : SphereOps) (riskAt : ℚ → ℚ → Window → ℚ)
    (sevIndex : SevIndex) (cell_m : ℚ) (req : ReqParams) (s e : ℚ × ℚ)
    (routes : List RouteData) (directions2 : List (ℚ × ℚ) → List RouteData) :
    Except CoreErr RouteResp :=
  match route_core ops riskAt req s e routes directions2 with
  | .error err => .error err
  | .ok (best, _, _) =>
    let sev := severity_for_route sevIndex cell_m best.geom best.dist_km
      req.time_window req.buffer_m
    .ok ⟨best.geom.map (fun p => (p.2, p.1)), py_round3 best.dist_km, (sev.1 : ℚ)⟩

/-- route_by_addresses of main.py (lines 134-179): same selection, but the
returned safety_score is `round(risk_avg, 3)` — the float average risk of the
chosen candidate, with no severity computation at all. -/
def route_by_addresses_main (ops : SphereOps) (riskAt : ℚ → ℚ → Window → ℚ)
    (req : ReqParams) (s e : ℚ × ℚ) (routes : List RouteData)
    (directions2 : List (ℚ × ℚ) → List RouteData) : Except CoreErr RouteResp :=
  match route_core ops riskAt req s e routes directions2 with
  | .error err => .error err
  | .ok (best, _, _) =>
    .ok ⟨best.geom.map (fun p => (p.2, p.1)), py_round3 best.dist_km, py_round3 best.r_avg⟩

example : pyRange 0 7 2 = [0, 2, 4, 6] := by decide
example : route_avg_risk risk_at_safe [(1, 2), (3, 4)] Window.day = 0 := by
  norm_num [route_avg_risk, pyRange, risk_at_safe, List.range_succ]
example : worst_point risk_at_safe [(1, 2), (3, 4)] Window.day = some (0, 0, (1, 2)) := by
  norm_num [worst_point, worstLoop, risk_at_safe]

lemma pyRange_length (n s : ℕ) (hs : s ≠ 0) :
    (pyRange 0 n s).length = (n + s - 1) / s := by
  simp [pyRange, hs]

lemma pyRange_length_pos (n s : ℕ) (hn : n ≠ 0) (hs : s ≠ 0) :
    (pyRange 0 n s).length ≠ 0 := by
  rw [pyRange_length n s hs]
  have h1 : 1 ≤ (n + s - 1) / s := by
    rw [Nat.le_div_iff_mul_le (Nat.pos_of_ne_zero hs)]
    omega
  omega

/-- The sample count of route_avg_risk's subsampling: stride
`max(1, npts // 60)` yields `⌈npts / stride⌉` samples, which is `npts` itself
for `npts ≤ 119` and at most 90 for `npts ≥ 120`; the overall maximum is 119
(attained at `npts = 119`). -/
lemma avg_risk_sample_count_le (n : ℕ) :
    (pyRange 0 n (max 1 (n / 60))).length ≤ 119 := by
  have hs : max 1 (n / 60) ≠ 0 := by omega
  rw [pyRange_length n _ hs]
  rcases le_or_lt n 119 with h | h
  · have h1 : max 1 (n / 60) = 1 := by omega
    rw [h1]; omega
  · have h2 : 2 ≤ n / 60 := by omega
    have hmax : max 1 (n / 60) = n / 60 := by omega
    rw [hmax]
    have hpos : 0 < n / 60 := by omega
    have hlt : (n + n / 60 - 1) / (n / 60) < 91 := by
      rw [Nat.div_lt_iff_lt_mul hpos]
      omega
    omega

lemma route_avg_risk_nil (riskAt : ℚ → ℚ → Window → ℚ) (w : Window) :
    route_avg_risk riskAt [] w = 0 := by
  simp [route_avg_risk]

/-- With the code's actual risk oracle (risk_at_safe, identically zero because
`risk_at` is undefined), every route's average risk is zero. -/
lemma route_avg_risk_safe_zero (route : List (ℚ × ℚ)) (w : Window) :
    route_avg_risk risk_at_safe route w = 0 := by
  have h : ∀ l : List ℕ,
      (l.map (fun i => risk_at_safe (route.getD i (0, 0)).2 (route.getD i (0, 0)).1 w)).sum
        = 0 := by
    intro l
    apply List.sum_eq_zero
    intro x hx
    rcases List.mem_map.mp hx with ⟨i, _, hi⟩
    simpa [risk_at_safe] using hi.symm
  unfold route_avg_risk
  simp only [h]
  split_ifs <;> simp

/-- Closed-form behaviour of the worst_point update loop from an arbitrary
start state: either no element beats the incumbent risk and the state is
unchanged, or the loop lands on the first element attaining the maximum risk
(which strictly beats the incumbent and every earlier element). -/
lemma worstLoop_cases (riskAt : ℚ → ℚ → Window → ℚ) (w : Window)
    (l : List (ℚ × ℚ)) :
    ∀ (i0 : ℕ) (st : ℕ × ℚ × (ℚ × ℚ)),
      (worstLoop riskAt w l i0 st = st ∧ ∀ p ∈ l, riskAt p.2 p.1 w ≤ st.2.1) ∨
      (∃ j, j < l.length ∧
        worstLoop riskAt w l i0 st =
          (i0 + j, riskAt (l.getD j (0, 0)).2 (l.getD j (0, 0)).1 w, l.getD j (0, 0)) ∧
        st.2.1 < riskAt (l.getD j (0, 0)).2 (l.getD j (0, 0)).1 w ∧
        (∀ p ∈ l, riskAt p.2 p.1 w ≤ riskAt (l.getD j (0, 0)).2 (l.getD j (0, 0)).1 w) ∧
        (∀ k, k < j → riskAt (l.getD k (0, 0)).2 (l.getD k (0, 0)).1 w <
          riskAt (l.getD j (0, 0)).2 (l.getD j (0, 0)).1 w)) := by
  induction l with
  | nil =>
    intro i0 st
    exact Or.inl ⟨rfl, by simp⟩
  | cons p rest ih =>
    intro i0 st
    by_cases hc : st.2.1 < riskAt p.2 p.1 w
    · have hl : worstLoop riskAt w (p :: rest) i0 st =
          worstLoop riskAt w rest (i0 + 1) (i0, riskAt p.2 p.1 w, p) := by
        simp [worstLoop, hc]
      rcases ih (i0 + 1) (i0, riskAt p.2 p.1 w, p) with
        ⟨heq, hall⟩ | ⟨j, hj, heq, hgt, hmax, hfirst⟩
      · refine Or.inr ⟨0, by simp, ?_, by simpa using hc, ?_, by omega⟩
        · rw [hl, heq]; simp
        · intro q hq
          rcases List.mem_cons.mp hq with h | h
          · subst h; simp
          · simpa using hall q h
      · have hgt2 : riskAt p.2 p.1 w <
            riskAt (rest.getD j (0, 0)).2 (rest.getD j (0, 0)).1 w := hgt
        refine Or.inr ⟨j + 1, by simpa using hj, ?_, ?_, ?_, ?_⟩
        · rw [hl, heq]
          have harith : i0 + 1 + j = i0 + (j + 1) := by omega
          simp [harith]
        · simp only [List.getD_cons_succ]
          exact lt_trans hc hgt2
        · intro q hq
          simp only [List.getD_cons_succ]
          rcases List.mem_cons.mp hq with h | h
          · subst h; exact le_of_lt hgt2
          · exact hmax q h
        · intro k hk
          match k, hk with
          | 0, _ =>
            simp only [List.getD_cons_zero, List.getD_cons_succ]
            exact hgt2
          | k' + 1, hk =>
            simp only [List.getD_cons_succ]
            exact hfirst k' (by omega)
    · have hl : worstLoop riskAt w (p :: rest) i0 st =
          worstLoop riskAt w rest (i0 + 1) st := by
        simp [worstLoop, hc]
      rcases ih (i0 + 1) st with ⟨heq, hall⟩ | ⟨j, hj, heq, hgt, hmax, hfirst⟩
      · refine Or.inl ⟨by rw [hl, heq], ?_⟩
        intro q hq
        rcases List.mem_cons.mp hq with h | h
        · subst h; exact le_of_not_lt hc
        · exact hall q h
      · refine Or.inr ⟨j + 1, by simpa using hj, ?_, ?_, ?_, ?_⟩
        · rw [hl, heq]
          have harith : i0 + 1 + j = i0 + (j + 1) := by omega
          simp [harith]
        · simp only [List.getD_cons_succ]
          exact hgt
        · intro q hq
          simp only [List.getD_cons_succ]
          rcases List.mem_cons.mp hq with h | h
          · subst h; exact le_trans (le_of_not_lt hc) (le_of_lt hgt)
          · exact hmax q h
        · intro k hk
          match k, hk with
          | 0, _ =>
            simp only [List.getD_cons_zero, List.getD_cons_succ]
            exact lt_of_le_of_lt (le_of_not_lt hc) hgt
          | k' + 1, hk =>
            simp only [List.getD_cons_succ]
            exact hfirst k' (by omega)

/-- worst_point on a route whose risks are non-negative (normalized risk lives
in [0,1]) lands on the first vertex attaining the maximum risk, scanning every
vertex. -/
lemma worst_point_spec (riskAt : ℚ → ℚ → Window → ℚ) (route : List (ℚ × ℚ))
    (w : Window) (hne : route ≠ [])
    (hpos : ∀ p ∈ route, 0 ≤ riskAt p.2 p.1 w) :
    ∃ j, j < route.length ∧
      worst_point riskAt route w =
        some (j, riskAt (route.getD j (0, 0)).2 (route.getD j (0, 0)).1 w,
          route.getD j (0, 0)) ∧
      (∀ p ∈ route, riskAt p.2 p.1 w ≤
        riskAt (route.getD j (0, 0)).2 (route.getD j (0, 0)).1 w) ∧
      (∀ k, k < j → riskAt (route.getD k (0, 0)).2 (route.getD k (0, 0)).1 w <
        riskAt (route.getD j (0, 0)).2 (route.getD j (0, 0)).1 w) := by
  match route, hne with
  | p0 :: rest, _ =>
    rcases worstLoop_cases riskAt w (p0 :: rest) 0 (0, -1, p0) with
      ⟨_, hall⟩ | ⟨j, hj, heq, _, hmax, hfirst⟩
    · exfalso
      have h1 := hall p0 (List.mem_cons_self p0 rest)
      have h2 := hpos p0 (List.mem_cons_self p0 rest)
      simp only at h1
      linarith
    · exact ⟨j, hj, by simp [worst_point, heq], hmax, hfirst⟩

/-- The first minimum-score element of a candidate list: what
`sorted(scored, key=score)[0]` returns under Python's stable sort. -/
def firstMinC : List Candidate → Option Candidate
  | [] => none
  | c :: l =>
    some (match firstMinC l with
          | none => c
          | some b => if c.score ≤ b.score then c else b)

lemma firstMinC_none (l : List Candidate) : firstMinC l = none ↔ l = [] := by
  cases l <;> simp [firstMinC]

lemma head_orderedInsert (c : Candidate) (l : List Candidate) :
    (List.orderedInsert scoreLE c l).head? =
      some (match l.head? with
            | none => c
            | some b => if c.score ≤ b.score then c else b) := by
  cases l with
  | nil => rfl
  | cons b t =>
    by_cases h : c.score ≤ b.score
    · simp [List.orderedInsert, scoreLE, h]
    · simp [List.orderedInsert, scoreLE, h]

lemma head_sortByScore (l : List Candidate) :
    (sortByScore l).head? = firstMinC l := by
  induction l with
  | nil => rfl
  | cons c t ih =>
    have ih2 : (List.insertionSort scoreLE t).head? = firstMinC t := ih
    show (List.orderedInsert scoreLE c (List.insertionSort scoreLE t)).head? = _
    rw [head_orderedInsert, ih2]
    cases h : firstMinC t <;> simp [firstMinC, h]

lemma firstMinC_mem (l : List Candidate) (b : Candidate) (h : firstMinC l = some b) :
    b ∈ l := by
  induction l generalizing b with
  | nil => simp [firstMinC] at h
  | cons c t ih =>
    rw [firstMinC] at h
    have h2 := Option.some.inj h
    cases ht : firstMinC t with
    | none =>
      simp only [ht] at h2
      subst h2
      exact List.mem_cons_self c t
    | some bt =>
      simp only [ht] at h2
      by_cases hc : c.score ≤ bt.score
      · rw [if_pos hc] at h2
        subst h2
        exact List.mem_cons_self c t
      · rw [if_neg hc] at h2
        subst h2
        exact List.mem_cons_of_mem c (ih bt ht)

lemma firstMinC_min (l : List Candidate) (b : Candidate) (h : firstMinC l = some b) :
    ∀ c ∈ l, b.score ≤ c.score := by
  induction l generalizing b with
  | nil => simp [firstMinC] at h
  | cons c t ih =>
    rw [firstMinC] at h
    have h2 := Option.some.inj h
    cases ht : firstMinC t with
    | none =>
      simp only [ht] at h2
      subst h2
      have htnil : t = [] := (firstMinC_none t).mp ht
      subst htnil
      intro d hd
      rcases List.mem_cons.mp hd with h | h
      · rw [h]
      · simp at h
    | some bt =>
      simp only [ht] at h2
      by_cases hc : c.score ≤ bt.score
      · rw [if_pos hc] at h2
        subst h2
        intro d hd
        rcases List.mem_cons.mp hd with h | h
        · rw [h]
        · exact le_trans hc (ih bt ht d h)
      · rw [if_neg hc] at h2
        subst h2
        intro d hd
        rcases List.mem_cons.mp hd with h | h
        · rw [h]; exact le_of_lt (lt_of_not_ge hc)
        · exact ih bt ht d h

lemma firstMinC_first (l : List Candidate) (b : Candidate) (h : firstMinC l = some b) :
    ∃ l1 l2, l = l1 ++ b :: l2 ∧ ∀ d ∈ l1, b.score < d.score := by
  induction l generalizing b with
  | nil => simp [firstMinC] at h
  | cons c t ih =>
    rw [firstMinC] at h
    have h2 := Option.some.inj h
    cases ht : firstMinC t with
    | none =>
      simp only [ht] at h2
      subst h2
      exact ⟨[], t, rfl, by simp⟩
    | some bt =>
      simp only [ht] at h2
      by_cases hc : c.score ≤ bt.score
      · rw [if_pos hc] at h2
        subst h2
        exact ⟨[], t, rfl, by simp⟩
      · rw [if_neg hc] at h2
        subst h2
        rcases ih bt ht with ⟨l1, l2, hsplit, hlt⟩
        refine ⟨c :: l1, l2, by rw [List.cons_append, hsplit], ?_⟩
        intro d hd
        rcases List.mem_cons.mp hd with h | h
        · rw [h]; exact lt_of_not_ge hc
        · exact hlt d h

/-- The contributing keys of sev_total, in first-encounter order. -/
def sevKeys (cells : List (Key × ℤ)) (cell_m : ℚ) (route : List (ℚ × ℚ))
    (buffer_m : ℚ) : List Key :=
  hitKeys cells
    (((pyRange 0 route.length (max 1 (route.length / 300))).map
        (fun i => route.getD i (0, 0))).flatMap
      (neighborhoodKeys (max 1 ⌈buffer_m / max 1 cell_m⌉))) []

/-- Sum of the severities found under a list of keys, each key once. -/
def sevSum (cells : List (Key × ℤ)) (ks : List Key) : ℤ :=
  (ks.map (fun k => (lookupKey k cells).getD 0)).sum

lemma foldl_visitKey (cells : List (Key × ℤ)) (ks : List Key) :
    ∀ (seen : List Key) (tot : ℤ),
      (ks.foldl (visitKey cells) (seen, tot)).2 =
        tot + sevSum cells (hitKeys cells ks seen) := by
  induction ks with
  | nil => intro seen tot; simp [hitKeys, sevSum]
  | cons k ks ih =>
    intro seen tot
    by_cases hk : k ∈ seen
    · rw [List.foldl_cons]
      have hv : visitKey cells (seen, tot) k = (seen, tot) := by
        simp [visitKey, hk]
      rw [hv, ih, hitKeys, if_pos hk]
    · cases hl : lookupKey k cells with
      | some v =>
        rw [List.foldl_cons]
        have hv : visitKey cells (seen, tot) k = (k :: seen, tot + v) := by
          simp [visitKey, hk, hl]
        rw [hv, ih, hitKeys, if_neg hk, hl]
        simp [sevSum, hl]
        omega
      | none =>
        rw [List.foldl_cons]
        have hv : visitKey cells (seen, tot) k = (seen, tot) := by
          simp [visitKey, hk, hl]
        rw [hv, ih, hitKeys, if_neg hk, hl]

lemma hitKeys_not_seen (cells : List (Key × ℤ)) (ks : List Key) :
    ∀ (seen : List Key) (k : Key), k ∈ hitKeys cells ks seen → k ∉ seen := by
  induction ks with
  | nil => intro seen k h; simp [hitKeys] at h
  | cons a ks ih =>
    intro seen k h
    rw [hitKeys] at h
    by_cases ha : a ∈ seen
    · rw [if_pos ha] at h
      exact ih seen k h
    · rw [if_neg ha] at h
      cases hl : lookupKey a cells with
      | some v =>
        rw [hl] at h
        rcases List.mem_cons.mp h with h | h
        · rw [h]; exact ha
        · intro hks
          exact ih (a :: seen) k h (List.mem_cons_of_mem a hks)
      | none =>
        rw [hl] at h
        exact ih seen k h

lemma hitKeys_nodup (cells : List (Key × ℤ)) (ks : List Key) :
    ∀ seen : List Key, (hitKeys cells ks seen).Nodup := by
  induction ks with
  | nil => intro seen; simp [hitKeys]
  | cons a ks ih =>
    intro seen
    by_cases ha : a ∈ seen
    · rw [hitKeys, if_pos ha]; exact ih seen
    · cases hl : lookupKey a cells with
      | some v =>
        rw [hitKeys, if_neg ha, hl]
        refine List.nodup_cons.mpr ⟨?_, ih (a :: seen)⟩
        intro hmem
        exact hitKeys_not_seen cells ks (a :: seen) a hmem (List.mem_cons_self a seen)
      | none =>
        rw [hitKeys, if_neg ha, hl]; exact ih seen

lemma hitKeys_mem_iff (cells : List (Key × ℤ)) (ks : List Key) :
    ∀ (seen : List Key) (k : Key),
      k ∈ hitKeys cells ks seen ↔
        k ∈ ks ∧ k ∉ seen ∧ (lookupKey k cells).isSome := by
  induction ks with
  | nil => intro seen k; simp [hitKeys]
  | cons a ks ih =>
    intro seen k
    by_cases ha : a ∈ seen
    · rw [hitKeys, if_pos ha, ih]
      constructor
      · rintro ⟨h1, h2, h3⟩
        exact ⟨List.mem_cons_of_mem a h1, h2, h3⟩
      · rintro ⟨h1, h2, h3⟩
        rcases List.mem_cons.mp h1 with h | h
        · exact absurd (h ▸ ha) h2
        · exact ⟨h, h2, h3⟩
    · cases hl : lookupKey a cells with
      | some v =>
        rw [hitKeys, if_neg ha, hl]
        constructor
        · intro h
          rcases List.mem_cons.mp h with h | h
          · rw [h]
            exact ⟨List.mem_cons_self a ks, ha, by rw [hl]; rfl⟩
          · rcases (ih (a :: seen) k).mp h with ⟨h1, h2, h3⟩
            refine ⟨List.mem_cons_of_mem a h1, fun hs => h2 (List.mem_cons_of_mem a hs), h3⟩
        · rintro ⟨h1, h2, h3⟩
          by_cases hka : k = a
          · subst hka; exact List.mem_cons_self k _
          · rcases List.mem_cons.mp h1 with h | h
            · exact absurd h hka
            · refine List.mem_cons_of_mem a ((ih (a :: seen) k).mpr ⟨h, ?_, h3⟩)
              intro hs
              rcases List.mem_cons.mp hs with h' | h'
              · exact hka h'
              · exact h2 h'
      | none =>
        rw [hitKeys, if_neg ha, hl, ih]
        constructor
        · rintro ⟨h1, h2, h3⟩
          exact ⟨List.mem_cons_of_mem a h1, h2, h3⟩
        · rintro ⟨h1, h2, h3⟩
          rcases List.mem_cons.mp h1 with h | h
          · subst h
            rw [hl] at h3
            simp at h3
          · exact ⟨h, h2, h3⟩

/-- severity_for_route on a non-empty route with a non-empty window map is the
sum of the severities of the deduplicated contributing keys, and crimes_per_km
divides that total by `max(dist_km, 1e-6)`. -/
lemma severity_for_route_spec (sevIndex : SevIndex) (cell_m : ℚ)
    (route : List (ℚ × ℚ)) (dist_km : ℚ) (w : Window) (buffer_m : ℚ)
    (hr : route ≠ []) (hc : sevIndex.get w ≠ []) :
    severity_for_route sevIndex cell_m route dist_km w buffer_m =
      (sevSum (sevIndex.get w) (sevKeys (sevIndex.get w) cell_m route buffer_m),
       ((sevSum (sevIndex.get w) (sevKeys (sevIndex.get w) cell_m route buffer_m) : ℤ) : ℚ) /
         max dist_km (1 / 1000000)) := by
  unfold severity_for_route
  rw [if_neg hr, if_neg hc]
  have hf := foldl_visitKey (sevIndex.get w)
    (((pyRange 0 route.length (max 1 (route.length / 300))).map
        (fun i => route.getD i (0, 0))).flatMap
      (neighborhoodKeys (max 1 ⌈buffer_m / max 1 cell_m⌉))) [] 0
  simp only [zero_add] at hf
  simp only [hf, sevKeys]

lemma propose_detour_waypoint_some (ops : SphereOps) (riskAt : ℚ → ℚ → Window → ℚ)
    (route : List (ℚ × ℚ)) (w : Window) (off : ℚ) (hne : route ≠ []) :
    ∃ v, propose_detour_waypoint ops riskAt route w off = some v := by
  match route, hne with
  | p0 :: rest, _ => exact ⟨_, rfl⟩

lemma propose_detour_waypoint_nil (ops : SphereOps) (riskAt : ℚ → ℚ → Window → ℚ)
    (w : Window) (off : ℚ) :
    propose_detour_waypoint ops riskAt [] w off = none := rfl

lemma origPool_ne_nil (riskAt : ℚ → ℚ → Window → ℚ) (req : ReqParams)
    (routes : List RouteData) (hne : routes ≠ []) :
    origPool riskAt req routes ≠ [] := by
  match routes, hne with
  | r :: rs, _ => simp [origPool, List.take_succ_cons]

lemma exists_firstMinC (l : List Candidate) (h : l ≠ []) :
    ∃ b, firstMinC l = some b := by
  cases hfm : firstMinC l with
  | none => exact absurd ((firstMinC_none l).mp hfm) h
  | some b => exact ⟨b, rfl⟩

lemma scored_mem_shape (riskAt : ℚ → ℚ → Window → ℚ) (w : Window) (alpha : ℚ) (tag : Tag)
    (rts : List RouteData) (c : Candidate)
    (hc : c ∈ rts.map (scoreRoute riskAt w alpha tag)) :
    c.score = c.dist_km * (7 / 10) + c.r_avg * alpha * (3 / 10) ∧
    c.r_avg = route_avg_risk riskAt c.geom w ∧ c.tag = tag := by
  rcases List.mem_map.mp hc with ⟨rd, _, hrd⟩
  rw [← hrd]
  simp [scoreRoute]

/-- A complete successful run of the shared selector core under the two
liveness side conditions (some route came back; geometries are non-empty, as a
usable route has ≥ 2 points).  Captures: which candidate is chosen (the stable
first minimum of the pool), when the detour branch fires, the single detour
directions call `[start, waypoint, end]`, and the shape of the final pool. -/
lemma route_core_run (ops : SphereOps) (riskAt : ℚ → ℚ → Window → ℚ) (req : ReqParams)
    (s e : ℚ × ℚ) (routes : List RouteData)
    (directions2 : List (ℚ × ℚ) → List RouteData)
    (hne : routes ≠ []) (hg : ∀ rd ∈ routes, rd.geometry ≠ []) :
    ∃ best pool log bestOrig,
      route_core ops riskAt req s e routes directions2 = .ok (best, pool, log) ∧
      firstMinC (origPool riskAt req routes) = some bestOrig ∧
      firstMinC pool = some best ∧
      ((req.risk_threshold ≤ bestOrig.r_avg ∧
        ∃ wp, propose_detour_waypoint ops riskAt bestOrig.geom req.time_window
            req.detour_offset_m = some wp ∧
          log = some [s, wp, e] ∧
          pool = origPool riskAt req routes ++
            detourPool riskAt req directions2 [s, wp, e]) ∨
       (¬ req.risk_threshold ≤ bestOrig.r_avg ∧
        log = none ∧ best = bestOrig ∧ pool = origPool riskAt req routes)) := by
  have hsne := origPool_ne_nil riskAt req routes hne
  obtain ⟨bestOrig, hbo⟩ := exists_firstMinC _ hsne
  have hbo_mem := firstMinC_mem _ bestOrig hbo
  have hbo_geom : bestOrig.geom ≠ [] := by
    rcases List.mem_map.mp hbo_mem with ⟨rd, hrd, hEq⟩
    have hmem : rd ∈ routes := List.take_subset 3 routes hrd
    rw [← hEq]
    simpa [scoreRoute] using hg rd hmem
  by_cases hcond : req.risk_threshold ≤ bestOrig.r_avg
  · obtain ⟨wp, hwp⟩ := propose_detour_waypoint_some ops riskAt bestOrig.geom
      req.time_window req.detour_offset_m hbo_geom
    have hpne : origPool riskAt req routes ++
        detourPool riskAt req directions2 [s, wp, e] ≠ [] := by
      intro hcontra
      exact hsne (List.append_eq_nil.mp hcontra).1
    obtain ⟨best, hbest⟩ := exists_firstMinC _ hpne
    refine ⟨best, _, some [s, wp, e], bestOrig, ?_, hbo, hbest,
      Or.inl ⟨hcond, wp, hwp, rfl, rfl⟩⟩
    simp only [route_core]
    rw [if_neg hne]
    split
    · next hnone =>
      rw [head_sortByScore, hbo] at hnone
      cases hnone
    · next bestOrig2 hsome =>
      rw [head_sortByScore, hbo] at hsome
      injection hsome with hsome
      subst hsome
      rw [if_pos hcond]
      split
      · next hpnone =>
        rw [hwp] at hpnone
        cases hpnone
      · next wp2 hpsome =>
        rw [hwp] at hpsome
        injection hpsome with hpsome
        subst hpsome
        split
        · next hfnone =>
          rw [head_sortByScore, hbest] at hfnone
          cases hfnone
        · next best2 hfsome =>
          rw [head_sortByScore, hbest] at hfsome
          injection hfsome with hfsome
          subst hfsome
          rfl
  · refine ⟨bestOrig, _, none, bestOrig, ?_, hbo, hbo, Or.inr ⟨hcond, rfl, rfl, rfl⟩⟩
    simp only [route_core]
    rw [if_neg hne]
    split
    · next hnone =>
      rw [head_sortByScore, hbo] at hnone
      cases hnone
    · next bestOrig2 hsome =>
      rw [head_sortByScore, hbo] at hsome
      injection hsome with hsome
      subst hsome
      rw [if_neg hcond]

/-- Claim C3: in the code as given, risk_at_safe returns 0.0 for every input —
the wrapped function `risk_at` is never defined in either source file, the
NameError is swallowed by the blanket handler — and therefore route_avg_risk
returns 0.0 for every route, and worst_point returns index 0 with risk 0.0
(and the first coordinate) on every route on which it returns at all. -/
theorem C3_risk_at_safe_always_zero :
    (∀ (lat lon : ℚ) (w : Window), risk_at_safe lat lon w = 0) ∧
    (∀ (route : List (ℚ × ℚ)) (w : Window), route_avg_risk risk_at_safe route w = 0) ∧
    (∀ (route : List (ℚ × ℚ)) (w : Window) (p0 : ℚ × ℚ) (rest : List (ℚ × ℚ)),
      route = p0 :: rest → worst_point risk_at_safe route w = some (0, 0, p0)) := by
  refine ⟨fun _ _ _ => rfl, route_avg_risk_safe_zero, ?_⟩
  intro route w p0 rest hroute
  subst hroute
  rcases worst_point_spec risk_at_safe (p0 :: rest) w (by simp)
      (by intro p _; simp [risk_at_safe]) with ⟨j, hj, heq, hmax, hfirst⟩
  have hj0 : j = 0 := by
    by_contra hne0
    have hcontra := hfirst 0 (by omega)
    simp [risk_at_safe] at hcontra
  subst hj0
  simpa [risk_at_safe] using heq

theorem C3_witness :
    risk_at_safe 3 4 Window.night = 0 ∧
    route_avg_risk risk_at_safe [(1, 2)] Window.day = 0 ∧
    worst_point risk_at_safe [(1, 2)] Window.day = some (0, 0, (1, 2)) :=
  ⟨C3_risk_at_safe_always_zero.1 3 4 Window.night,
   C3_risk_at_safe_always_zero.2.1 [(1, 2)] Window.day,
   C3_risk_at_safe_always_zero.2.2 [(1, 2)] Window.day (1, 2) [] rfl⟩

/-- Claim C7: worst_point scans every vertex of the route (no subsampling) and
returns the first vertex index attaining the maximum observed risk (ties
broken by earliest index), together with that risk value and the vertex's
coordinate.  Normalized risks are non-negative, which the claim presupposes
(the loop's −1.0 seed makes the first update unconditional). -/
theorem C7_worst_point_first_max (riskAt : ℚ → ℚ → Window → ℚ)
    (route : List (ℚ × ℚ)) (w : Window) (hne : route ≠ [])
    (hpos : ∀ p ∈ route, 0 ≤ riskAt p.2 p.1 w) :
    ∃ j, j < route.length ∧
      worst_point riskAt route w =
        some (j, riskAt (route.getD j (0, 0)).2 (route.getD j (0, 0)).1 w,
          route.getD j (0, 0)) ∧
      (∀ p ∈ route, riskAt p.2 p.1 w ≤
        riskAt (route.getD j (0, 0)).2 (route.getD j (0, 0)).1 w) ∧
      (∀ k, k < j → riskAt (route.getD k (0, 0)).2 (route.getD k (0, 0)).1 w <
        riskAt (route.getD j (0, 0)).2 (route.getD j (0, 0)).1 w) :=
  worst_point_spec riskAt route w hne hpos

theorem C7_witness :
    ∃ j, j < ([((0 : ℚ), (0 : ℚ)), (5, 5), (9, 9)] : List (ℚ × ℚ)).length ∧
      worst_point (fun lat _ _ => lat) [((0 : ℚ), (0 : ℚ)), (5, 5), (9, 9)] Window.day =
        some (j,
          (fun (lat : ℚ) (_ : ℚ) (_ : Window) => lat)
            (([((0 : ℚ), (0 : ℚ)), (5, 5), (9, 9)] : List (ℚ × ℚ)).getD j (0, 0)).2
            (([((0 : ℚ), (0 : ℚ)), (5, 5), (9, 9)] : List (ℚ × ℚ)).getD j (0, 0)).1
            Window.day,
          ([((0 : ℚ), (0 : ℚ)), (5, 5), (9, 9)] : List (ℚ × ℚ)).getD j (0, 0)) ∧
      (∀ p ∈ ([((0 : ℚ), (0 : ℚ)), (5, 5), (9, 9)] : List (ℚ × ℚ)),
        (fun (lat : ℚ) (_ : ℚ) (_ : Window) => lat) p.2 p.1 Window.day ≤
          (fun (lat : ℚ) (_ : ℚ) (_ : Window) => lat)
            (([((0 : ℚ), (0 : ℚ)), (5, 5), (9, 9)] : List (ℚ × ℚ)).getD j (0, 0)).2
            (([((0 : ℚ), (0 : ℚ)), (5, 5), (9, 9)] : List (ℚ × ℚ)).getD j (0, 0)).1
            Window.day) ∧
      (∀ k, k < j →
        (fun (lat : ℚ) (_ : ℚ) (_ : Window) => lat)
          (([((0 : ℚ), (0 : ℚ)), (5, 5), (9, 9)] : List (ℚ × ℚ)).getD k (0, 0)).2
          (([((0 : ℚ), (0 : ℚ)), (5, 5), (9, 9)] : List (ℚ × ℚ)).getD k (0, 0)).1
          Window.day <
          (fun (lat : ℚ) (_ : ℚ) (_ : Window) => lat)
            (([((0 : ℚ), (0 : ℚ)), (5, 5), (9, 9)] : List (ℚ × ℚ)).getD j (0, 0)).2
            (([((0 : ℚ), (0 : ℚ)), (5, 5), (9, 9)] : List (ℚ × ℚ)).getD j (0, 0)).1
            Window.day) :=
  C7_worst_point_first_max (fun lat _ _ => lat) [((0 : ℚ), (0 : ℚ)), (5, 5), (9, 9)]
    Window.day (by simp)
    (by
      intro p hp
      simp only [List.mem_cons, List.not_mem_nil, or_false] at hp
      rcases hp with h | h | h <;> subst h <;> norm_num)

/-- Claim C10 (amended): route_avg_risk returns 0.0 on an empty route;
severity_for_route returns (0, 0.0) on an empty route, and its crimes_per_km
component always divides the severity total by max(dist_km, 1e-6); however
worst_point and propose_detour_waypoint do NOT return sentinels on an empty
route — they raise IndexError (the source reads route_coords[0] unguarded),
modelled here as none. -/
theorem C10_empty_route_and_zero_distance :
    (∀ (riskAt : ℚ → ℚ → Window → ℚ) (w : Window), route_avg_risk riskAt [] w = 0) ∧
    (∀ (sevIndex : SevIndex) (cell_m dist_km : ℚ) (w : Window) (buffer_m : ℚ),
      severity_for_route sevIndex cell_m [] dist_km w buffer_m = (0, 0)) ∧
    (∀ (sevIndex : SevIndex) (cell_m : ℚ) (route : List (ℚ × ℚ)) (dist_km : ℚ)
        (w : Window) (buffer_m : ℚ),
      (severity_for_route sevIndex cell_m route dist_km w buffer_m).2 =
        ((severity_for_route sevIndex cell_m route dist_km w buffer_m).1 : ℚ) /
          max dist_km (1 / 1000000)) ∧
    (∀ (riskAt : ℚ → ℚ → Window → ℚ) (w : Window), worst_point riskAt [] w = none) ∧
    (∀ (ops : SphereOps) (riskAt : ℚ → ℚ → Window → ℚ) (w : Window) (off : ℚ),
      propose_detour_waypoint ops riskAt [] w off = none) := by
  refine ⟨fun riskAt w => route_avg_risk_nil riskAt w, fun _ _ _ _ _ => rfl, ?_,
    fun _ _ => rfl, fun _ _ _ _ => rfl⟩
  intro sevIndex cell_m route dist_km w buffer_m
  simp only [severity_for_route]
  split_ifs <;> simp

theorem C10_counterexample :
    worst_point risk_at_safe [] Window.day = none := rfl

/-- Claim C5 (amended): route_avg_risk returns 0.0 for an empty route, and for
a non-empty route returns the unweighted mean of the per-sample risk at
indices 0, s, 2s, … with stride s = max(1, point_count // 60); however the
number of samples is ⌈point_count / s⌉, which is bounded by 119 — not by ~60:
every route with at most 119 points is sampled at every point. -/
theorem C5_subsampled_mean (riskAt : ℚ → ℚ → Window → ℚ) (route : List (ℚ × ℚ))
    (w : Window) :
    (route = [] → route_avg_risk riskAt route w = 0) ∧
    (route ≠ [] →
      route_avg_risk riskAt route w =
        ((pyRange 0 route.length (max 1 (route.length / 60))).map
          (fun i => riskAt (route.getD i (0, 0)).2 (route.getD i (0, 0)).1 w)).sum /
        ((pyRange 0 route.length (max 1 (route.length / 60))).length : ℚ)) ∧
    (pyRange 0 route.length (max 1 (route.length / 60))).length ≤ 119 := by
  refine ⟨fun h => by rw [h]; exact route_avg_risk_nil riskAt w, ?_,
    avg_risk_sample_count_le route.length⟩
  intro hne
  have hlen : route.length ≠ 0 := by simpa using hne
  have hn := pyRange_length_pos route.length (max 1 (route.length / 60)) hlen (by omega)
  simp only [route_avg_risk]
  rw [if_neg hlen, if_neg hn]

theorem C5_witness :
    (([((1 : ℚ), (2 : ℚ))] : List (ℚ × ℚ)) = [] →
      route_avg_risk (fun lat lon _ => lat + lon) [((1 : ℚ), (2 : ℚ))] Window.day = 0) ∧
    (([((1 : ℚ), (2 : ℚ))] : List (ℚ × ℚ)) ≠ [] →
      route_avg_risk (fun lat lon _ => lat + lon) [((1 : ℚ), (2 : ℚ))] Window.day =
        ((pyRange 0 ([((1 : ℚ), (2 : ℚ))] : List (ℚ × ℚ)).length
            (max 1 (([((1 : ℚ), (2 : ℚ))] : List (ℚ × ℚ)).length / 60))).map
          (fun i => (fun (lat lon : ℚ) (_ : Window) => lat + lon)
            (([((1 : ℚ), (2 : ℚ))] : List (ℚ × ℚ)).getD i (0, 0)).2
            (([((1 : ℚ), (2 : ℚ))] : List (ℚ × ℚ)).getD i (0, 0)).1 Window.day)).sum /
        ((pyRange 0 ([((1 : ℚ), (2 : ℚ))] : List (ℚ × ℚ)).length
            (max 1 (([((1 : ℚ), (2 : ℚ))] : List (ℚ × ℚ)).length / 60))).length : ℚ)) ∧
    (pyRange 0 ([((1 : ℚ), (2 : ℚ))] : List (ℚ × ℚ)).length
      (max 1 (([((1 : ℚ), (2 : ℚ))] : List (ℚ × ℚ)).length / 60))).length ≤ 119 :=
  C5_subsampled_mean (fun lat lon _ => lat + lon) [((1 : ℚ), (2 : ℚ))] Window.day

/-- Claim C5 counterexample: a 119-point route has stride
max(1, 119 // 60) = 1, so route_avg_risk samples all 119 indices — the sample
count is 119, which exceeds the claimed ~60 bound. -/
theorem C5_counterexample :
    (pyRange 0 119 (max 1 (119 / 60))).length = 119 ∧ 60 < 119 := by
  constructor
  · decide
  · decide

/-- Claim C9 (amended): a MISSING persisted index file (FileNotFoundError) is
non-fatal at load time — the loader yields the empty index for every window —
and lookups then degrade to the zero defaults: severity_for_route returns
(0, 0.0) whenever the window's cell map is empty, and the normalized-risk
lookup returns 0.0.  An UNREADABLE file is not handled: only FileNotFoundError
is caught, so any other error propagates (see the counterexample). -/
theorem C9_missing_index_nonfatal :
    load_severity_index (Except.error ReadErr.fileNotFound) = Except.ok emptySevIndex ∧
    (∀ w, emptySevIndex.get w = []) ∧
    (∀ (cell_m : ℚ) (route : List (ℚ × ℚ)) (dist_km : ℚ) (w : Window) (buffer_m : ℚ),
      severity_for_route emptySevIndex cell_m route dist_km w buffer_m = (0, 0)) ∧
    (∀ (lat lon : ℚ) (w : Window), risk_at_safe lat lon w = 0) := by
  refine ⟨rfl, fun w => by cases w <;> rfl, ?_, fun _ _ _ => rfl⟩
  intro cell_m route dist_km w buffer_m
  simp only [severity_for_route]
  split_ifs with h1 h2
  · rfl
  · rfl
  · exfalso
    apply h2
    cases w <;> rfl

/-- Claim C9 counterexample: an unreadable persisted index (e.g.
PermissionError from open()) at load time is fatal, not degraded — the loader
catches only FileNotFoundError, so the error propagates instead of producing
an empty index. -/
theorem C9_counterexample :
    load_severity_index (Except.error ReadErr.permissionDenied) =
      Except.error ReadErr.permissionDenied := rfl

/-- A trivial instantiation of the opaque spherical-trigonometry kernels, used
only to build concrete inputs for witnesses. -/
def opsZero : SphereOps := ⟨fun _ _ => 0, fun _ _ _ _ => (0, 0)⟩

/-- A concrete request: day window, alpha 1, risk_threshold 0.35, detour
offset 220 m, buffer 40 m. -/
def reqStd : ReqParams := ⟨Window.day, 1, 7 / 20, 220, 40⟩

/-- Same request but with risk_threshold 0, which the zero average risk of the
code's risk_at_safe always meets, so the detour branch fires. -/
def reqZeroThreshold : ReqParams := ⟨Window.day, 1, 0, 220, 40⟩

/-- One concrete directions result: a single two-point route of 1000 m. -/
def routesOne : List RouteData := [⟨[(0, 0), (1, 1)], 1000⟩]

/-- Claim C1: the selector scores every pool candidate with
score = distance_km·0.7 + average_risk·alpha·0.3 and returns the candidate
with the minimum score over the whole pool — up to 3 originals plus up to 3
detour candidates when a detour was requested — breaking ties by enumeration
order (originals before detour candidates, first-seen first: every candidate
placed earlier in the pool than the chosen one scores strictly higher). -/
theorem C1_min_score_selection (ops : SphereOps) (riskAt : ℚ → ℚ → Window → ℚ)
    (req : ReqParams) (s e : ℚ × ℚ) (routes : List RouteData)
    (directions2 : List (ℚ × ℚ) → List RouteData)
    (hne : routes ≠ []) (hg : ∀ rd ∈ routes, rd.geometry ≠ []) :
    ∃ best pool log,
      route_core ops riskAt req s e routes directions2 = .ok (best, pool, log) ∧
      (∀ c ∈ pool, c.score = c.dist_km * (7 / 10) + c.r_avg * req.alpha * (3 / 10) ∧
        c.r_avg = route_avg_risk riskAt c.geom req.time_window) ∧
      (∃ detourCands,
        pool = origPool riskAt req routes ++ detourCands ∧
        (origPool riskAt req routes).length ≤ 3 ∧ detourCands.length ≤ 3 ∧
        (log = none → detourCands = [])) ∧
      best ∈ pool ∧
      (∀ c ∈ pool, best.score ≤ c.score) ∧
      (∃ l1 l2, pool = l1 ++ best :: l2 ∧ ∀ d ∈ l1, best.score < d.score) := by
  obtain ⟨best, pool, log, bestOrig, hcore, hbo, hbest, hcase⟩ :=
    route_core_run ops riskAt req s e routes directions2 hne hg
  have hshape : ∀ c ∈ pool,
      c.score = c.dist_km * (7 / 10) + c.r_avg * req.alpha * (3 / 10) ∧
      c.r_avg = route_avg_risk riskAt c.geom req.time_window := by
    intro c hc
    have hsplit : c ∈ origPool riskAt req routes ∨
        ∃ call, c ∈ detourPool riskAt req directions2 call := by
      rcases hcase with ⟨_, wp, _, _, hpool⟩ | ⟨_, _, _, hpool⟩
      · rw [hpool] at hc
        rcases List.mem_append.mp hc with h | h
        · exact Or.inl h
        · exact Or.inr ⟨[s, wp, e], h⟩
      · rw [hpool] at hc
        exact Or.inl hc
    rcases hsplit with h | ⟨call, h⟩
    · have hs := scored_mem_shape riskAt req.time_window req.alpha Tag.orig
        (routes.take 3) c h
      exact ⟨hs.1, hs.2.1⟩
    · have hs := scored_mem_shape riskAt req.time_window req.alpha Tag.detour
        ((directions2 call).take 3) c h
      exact ⟨hs.1, hs.2.1⟩
  have horiglen : (origPool riskAt req routes).length ≤ 3 := by
    simp only [origPool, List.length_map, List.length_take]
    omega
  refine ⟨best, pool, log, hcore, hshape, ?_, firstMinC_mem pool best hbest,
    firstMinC_min pool best hbest, firstMinC_first pool best hbest⟩
  rcases hcase with ⟨_, wp, _, hlog, hpool⟩ | ⟨_, hlog, _, hpool⟩
  · refine ⟨detourPool riskAt req directions2 [s, wp, e], hpool, horiglen, ?_, ?_⟩
    · simp only [detourPool, List.length_map, List.length_take]
      omega
    · intro h
      rw [hlog] at h
      cases h
  · exact ⟨[], by rw [hpool, List.append_nil], horiglen, by simp, fun _ => rfl⟩

theorem C1_witness :
    ∃ best pool log,
      route_core opsZero risk_at_safe reqStd (0, 0) (1, 1) routesOne (fun _ => []) =
        .ok (best, pool, log) ∧
      (∀ c ∈ pool, c.score = c.dist_km * (7 / 10) + c.r_avg * reqStd.alpha * (3 / 10) ∧
        c.r_avg = route_avg_risk risk_at_safe c.geom reqStd.time_window) ∧
      (∃ detourCands,
        pool = origPool risk_at_safe reqStd routesOne ++ detourCands ∧
        (origPool risk_at_safe reqStd routesOne).length ≤ 3 ∧ detourCands.length ≤ 3 ∧
        (log = none → detourCands = [])) ∧
      best ∈ pool ∧
      (∀ c ∈ pool, best.score ≤ c.score) ∧
      (∃ l1 l2, pool = l1 ++ best :: l2 ∧ ∀ d ∈ l1, best.score < d.score) :=
  C1_min_score_selection opsZero risk_at_safe reqStd (0, 0) (1, 1) routesOne (fun _ => [])
    (by simp [routesOne])
    (by
      intro rd hrd
      simp only [routesOne, List.mem_singleton] at hrd
      subst hrd
      simp)

/-- Claim C2: the selector makes exactly one additional directions call —
through exactly one proposed waypoint, with coordinate list
[start, waypoint, end] — and appends the resulting (up to 3) detour candidates
to the retained originals, if and only if the best-scoring original
candidate's average risk is at or above the caller-supplied risk threshold;
below the threshold no waypoint is proposed, no second call is made and the
pool stays exactly the originals. -/
theorem C2_detour_iff_threshold (ops : SphereOps) (riskAt : ℚ → ℚ → Window → ℚ)
    (req : ReqParams) (s e : ℚ × ℚ) (routes : List RouteData)
    (directions2 : List (ℚ × ℚ) → List RouteData)
    (hne : routes ≠ []) (hg : ∀ rd ∈ routes, rd.geometry ≠ []) :
    ∃ best pool log bestOrig,
      route_core ops riskAt req s e routes directions2 = .ok (best, pool, log) ∧
      firstMinC (origPool riskAt req routes) = some bestOrig ∧
      (req.risk_threshold ≤ bestOrig.r_avg →
        ∃ wp, propose_detour_waypoint ops riskAt bestOrig.geom req.time_window
            req.detour_offset_m = some wp ∧
          log = some [s, wp, e] ∧
          pool = origPool riskAt req routes ++
            detourPool riskAt req directions2 [s, wp, e]) ∧
      (¬ req.risk_threshold ≤ bestOrig.r_avg →
        log = none ∧ pool = origPool riskAt req routes) := by
  obtain ⟨best, pool, log, bestOrig, hcore, hbo, hbest, hcase⟩ :=
    route_core_run ops riskAt req s e routes directions2 hne hg
  refine ⟨best, pool, log, bestOrig, hcore, hbo, ?_, ?_⟩
  · intro hcond
    rcases hcase with ⟨_, wp, hwp, hlog, hpool⟩ | ⟨hncond, _⟩
    · exact ⟨wp, hwp, hlog, hpool⟩
    · exact absurd hcond hncond
  · intro hncond
    rcases hcase with ⟨hcond, _⟩ | ⟨_, hlog, _, hpool⟩
    · exact absurd hcond hncond
    · exact ⟨hlog, hpool⟩

theorem C2_witness :
    ∃ best pool log bestOrig,
      route_core opsZero risk_at_safe reqZeroThreshold (0, 0) (1, 1) routesOne
        (fun _ => []) = .ok (best, pool, log) ∧
      firstMinC (origPool risk_at_safe reqZeroThreshold routesOne) = some bestOrig ∧
      (reqZeroThreshold.risk_threshold ≤ bestOrig.r_avg →
        ∃ wp, propose_detour_waypoint opsZero risk_at_safe bestOrig.geom
            reqZeroThreshold.time_window reqZeroThreshold.detour_offset_m = some wp ∧
          log = some [(0, 0), wp, (1, 1)] ∧
          pool = origPool risk_at_safe reqZeroThreshold routesOne ++
            detourPool risk_at_safe reqZeroThreshold (fun _ => []) [(0, 0), wp, (1, 1)]) ∧
      (¬ reqZeroThreshold.risk_threshold ≤ bestOrig.r_avg →
        log = none ∧ pool = origPool risk_at_safe reqZeroThreshold routesOne) :=
  C2_detour_iff_threshold opsZero risk_at_safe reqZeroThreshold (0, 0) (1, 1) routesOne
    (fun _ => []) (by simp [routesOne])
    (by
      intro rd hrd
      simp only [routesOne, List.mem_singleton] at hrd
      subst hrd
      simp)

lemma propose_eq_of_worst (ops : SphereOps) (riskAt : ℚ → ℚ → Window → ℚ)
    (route : List (ℚ × ℚ)) (w : Window) (off : ℚ) (idx : ℕ) (r : ℚ) (wll : ℚ × ℚ)
    (heq : worst_point riskAt route w = some (idx, r, wll)) :
    propose_detour_waypoint ops riskAt route w off =
      (let j := if 0 < idx then idx - 1 else min (idx + 1) (route.length - 1)
       let nb := route.getD j (0, 0)
       let br := ops.bearing_between (wll.1, wll.2) (nb.1, nb.2)
       let lft := ops.offset_point wll.2 wll.1 (pymod360 (br + 90)) off
       let rgt := ops.offset_point wll.2 wll.1 (pymod360 (br + 270)) off
       some (if riskAt lft.1 lft.2 w ≤ riskAt rgt.1 rgt.2 w
             then (lft.2, lft.1) else (rgt.2, rgt.1))) := by
  simp only [propose_detour_waypoint]
  rw [heq]

/-- Claim C8: propose_detour_waypoint locates the worst vertex, computes the
local bearing from it toward its predecessor — or toward its successor when
the worst vertex is the first point (routes have ≥ 2 points) — builds the two
lateral offset points at the configured offset distance at +90° and −90° from
that bearing ((br+270) mod 360 = −90°), and returns the offset point with the
lower normalized risk, preferring the +90° side on ties.  offset_point returns
(lat, lon); the returned waypoint is its (lon, lat) swap. -/
theorem C8_detour_waypoint (ops : SphereOps) (riskAt : ℚ → ℚ → Window → ℚ)
    (route : List (ℚ × ℚ)) (w : Window) (off : ℚ)
    (hlen : 2 ≤ route.length) (hpos : ∀ p ∈ route, 0 ≤ riskAt p.2 p.1 w) :
    ∃ idx,
      worst_point riskAt route w =
        some (idx, riskAt (route.getD idx (0, 0)).2 (route.getD idx (0, 0)).1 w,
          route.getD idx (0, 0)) ∧
      (∀ p ∈ route, riskAt p.2 p.1 w ≤
        riskAt (route.getD idx (0, 0)).2 (route.getD idx (0, 0)).1 w) ∧
      (let wll := route.getD idx (0, 0)
       let nb := route.getD (if 0 < idx then idx - 1 else idx + 1) (0, 0)
       let br := ops.bearing_between (wll.1, wll.2) (nb.1, nb.2)
       let lft := ops.offset_point wll.2 wll.1 (pymod360 (br + 90)) off
       let rgt := ops.offset_point wll.2 wll.1 (pymod360 (br + 270)) off
       propose_detour_waypoint ops riskAt route w off =
         some (if riskAt lft.1 lft.2 w ≤ riskAt rgt.1 rgt.2 w
               then (lft.2, lft.1) else (rgt.2, rgt.1))) := by
  have hne : route ≠ [] := by
    intro h
    rw [h] at hlen
    simp at hlen
  obtain ⟨idx, hidx, heq, hmax, _⟩ := worst_point_spec riskAt route w hne hpos
  refine ⟨idx, heq, hmax, ?_⟩
  have hj : (if 0 < idx then idx - 1 else min (idx + 1) (route.length - 1)) =
      (if 0 < idx then idx - 1 else idx + 1) := by
    by_cases h : 0 < idx
    · simp [h]
    · have hidx0 : idx = 0 := by omega
      subst hidx0
      simp
      omega
  rw [propose_eq_of_worst ops riskAt route w off idx _ _ heq, hj]

theorem C8_witness :
    ∃ idx,
      worst_point risk_at_safe [((0 : ℚ), (0 : ℚ)), (1, 1)] Window.day =
        some (idx,
          risk_at_safe (([((0 : ℚ), (0 : ℚ)), (1, 1)] : List (ℚ × ℚ)).getD idx (0, 0)).2
            (([((0 : ℚ), (0 : ℚ)), (1, 1)] : List (ℚ × ℚ)).getD idx (0, 0)).1 Window.day,
          ([((0 : ℚ), (0 : ℚ)), (1, 1)] : List (ℚ × ℚ)).getD idx (0, 0)) ∧
      (∀ p ∈ ([((0 : ℚ), (0 : ℚ)), (1, 1)] : List (ℚ × ℚ)),
        risk_at_safe p.2 p.1 Window.day ≤
          risk_at_safe (([((0 : ℚ), (0 : ℚ)), (1, 1)] : List (ℚ × ℚ)).getD idx (0, 0)).2
            (([((0 : ℚ), (0 : ℚ)), (1, 1)] : List (ℚ × ℚ)).getD idx (0, 0)).1 Window.day) ∧
      (let wll := ([((0 : ℚ), (0 : ℚ)), (1, 1)] : List (ℚ × ℚ)).getD idx (0, 0)
       let nb := ([((0 : ℚ), (0 : ℚ)), (1, 1)] : List (ℚ × ℚ)).getD
         (if 0 < idx then idx - 1 else idx + 1) (0, 0)
       let br := opsZero.bearing_between (wll.1, wll.2) (nb.1, nb.2)
       let lft := opsZero.offset_point wll.2 wll.1 (pymod360 (br + 90)) 200
       let rgt := opsZero.offset_point wll.2 wll.1 (pymod360 (br + 270)) 200
       propose_detour_waypoint opsZero risk_at_safe [((0 : ℚ), (0 : ℚ)), (1, 1)]
           Window.day 200 =
         some (if risk_at_safe lft.1 lft.2 Window.day ≤ risk_at_safe rgt.1 rgt.2 Window.day
               then (lft.2, lft.1) else (rgt.2, rgt.1))) :=
  C8_detour_waypoint opsZero risk_at_safe [((0 : ℚ), (0 : ℚ)), (1, 1)] Window.day 200
    (by simp) (by intro p _; simp [risk_at_safe])

lemma round_half_even_int (n : ℤ) : round_half_even (n : ℚ) = n := by
  norm_num [round_half_even]

lemma key6_int_mul_cell (m : ℤ) : key6 ((m : ℚ) * CELL_DEG) = 1600 * m := by
  have h : ((m : ℚ) * CELL_DEG) * 1000000 = ((1600 * m : ℤ) : ℚ) := by
    rw [CELL_DEG]
    push_cast
    ring
  unfold key6
  rw [h, round_half_even_int]

lemma floor_int_mul_cell (m : ℤ) : ⌊(m : ℚ) * CELL_DEG / CELL_DEG⌋ = m := by
  rw [mul_div_assoc, div_self (show (CELL_DEG : ℚ) ≠ 0 by norm_num [CELL_DEG]),
    mul_one, Int.floor_intCast]

lemma bin_for_int_mul (a b : ℤ) :
    bin_for ((a : ℚ) * CELL_DEG) ((b : ℚ) * CELL_DEG) =
      ((a : ℚ) * CELL_DEG, (b : ℚ) * CELL_DEG) := by
  unfold bin_for
  rw [floor_int_mul_cell, floor_int_mul_cell]

/-- Evaluation of a sample's bin neighborhood when the sample sits exactly on
a bin corner (lon = b·CELL_DEG, lat = a·CELL_DEG): the enumerated keys are the
micro-degree pairs (1600·(a+di), 1600·(b+dj)). -/
lemma neighborhoodKeys_int (r : ℤ) (a b : ℤ) :
    neighborhoodKeys r ((b : ℚ) * CELL_DEG, (a : ℚ) * CELL_DEG) =
      (intRange r).flatMap (fun di =>
        (intRange r).map (fun dj => (1600 * (a + di), 1600 * (b + dj)))) := by
  simp only [neighborhoodKeys]
  rw [bin_for_int_mul]
  have hkey : ∀ di dj : ℤ,
      cell_key_from_bin (((a : ℚ) * CELL_DEG, (b : ℚ) * CELL_DEG).1 + (di : ℚ) * CELL_DEG)
        (((a : ℚ) * CELL_DEG, (b : ℚ) * CELL_DEG).2 + (dj : ℚ) * CELL_DEG) =
        (1600 * (a + di), 1600 * (b + dj)) := by
    intro di dj
    have h1 : ((a : ℚ) * CELL_DEG, (b : ℚ) * CELL_DEG).1 + (di : ℚ) * CELL_DEG =
        ((a + di : ℤ) : ℚ) * CELL_DEG := by
      push_cast
      ring
    have h2 : ((a : ℚ) * CELL_DEG, (b : ℚ) * CELL_DEG).2 + (dj : ℚ) * CELL_DEG =
        ((b + dj : ℤ) : ℚ) * CELL_DEG := by
      push_cast
      ring
    unfold cell_key_from_bin
    rw [h1, h2, key6_int_mul_cell, key6_int_mul_cell]
  simp only [hkey]

/-- A concrete loaded index: the day window holds severity 7 in the cell whose
lower-left corner is (lat, lon) = (0.0016, 0) — adjacent to, not containing,
the origin. -/
def sevIndexEx : SevIndex := ⟨[((1600, 0), 7)], [], []⟩

/-- severity_for_route on the one-point route at the origin, with
cell_m = 116 and any buffer small enough that the bin radius clamps to r = 1:
the full 3×3 neighborhood is enumerated, so the adjacent severity-7 cell at
key (1600, 0) is counted. -/
lemma severity_single_zero_sample (buffer_m : ℚ)
    (hr1 : (max 1 ⌈buffer_m / max 1 (116 : ℚ)⌉ : ℤ) = 1) :
    severity_for_route sevIndexEx 116 [(0, 0)] 1 Window.day buffer_m = (7, 7) := by
  have hnk : neighborhoodKeys 1 ((0 : ℚ), (0 : ℚ)) =
      [(-1600, -1600), (-1600, 0), (-1600, 1600), (0, -1600), (0, 0), (0, 1600),
       (1600, -1600), (1600, 0), (1600, 1600)] := by
    have h0 : ((0 : ℚ), (0 : ℚ)) = (((0 : ℤ) : ℚ) * CELL_DEG, ((0 : ℤ) : ℚ) * CELL_DEG) := by
      norm_num
    rw [h0, neighborhoodKeys_int]
    decide
  simp only [severity_for_route]
  rw [if_neg (by simp), if_neg (by simp [sevIndexEx, SevIndex.get])]
  rw [hr1]
  have hsm : (pyRange 0 (([((0 : ℚ), (0 : ℚ))] : List (ℚ × ℚ)).length)
      (max 1 ((([((0 : ℚ), (0 : ℚ))] : List (ℚ × ℚ)).length) / 300))).map
      (fun i => ([((0 : ℚ), (0 : ℚ))] : List (ℚ × ℚ)).getD i (0, 0)) =
      [((0 : ℚ), (0 : ℚ))] := rfl
  rw [hsm]
  have hfl : ([((0 : ℚ), (0 : ℚ))] : List (ℚ × ℚ)).flatMap (neighborhoodKeys 1) =
      neighborhoodKeys 1 ((0 : ℚ), (0 : ℚ)) := by
    simp
  rw [hfl, hnk]
  have hfold : (List.foldl (visitKey (sevIndexEx.get Window.day)) ([], 0)
      [((-1600 : ℤ), (-1600 : ℤ)), (-1600, 0), (-1600, 1600), (0, -1600), (0, 0),
       (0, 1600), (1600, -1600), (1600, 0), (1600, 1600)]).2 = 7 := by
    decide
  rw [Prod.mk.injEq]
  refine ⟨hfold, ?_⟩
  rw [hfold]
  norm_num

/-- The single scored candidate of the C4 scenario. -/
def candC4 : Candidate := ⟨Tag.orig, 7 / 10, 1, 0, [(0, 0)]⟩

/-- The C4 scenario's directions result: one single-point route of 1000 m. -/
def routesC4 : List RouteData := [⟨[(0, 0)], 1000⟩]

lemma scoreRoute_C4eval :
    scoreRoute risk_at_safe Window.day 1 Tag.orig ⟨[(0, 0)], 1000⟩ = candC4 := by
  simp only [scoreRoute, candC4, route_avg_risk_safe_zero]
  rw [Candidate.mk.injEq]
  norm_num

lemma route_core_C4eval :
    route_core opsZero risk_at_safe reqStd (0, 0) (1, 1) routesC4 (fun _ => []) =
      .ok (candC4, [candC4], none) := by
  have hop : origPool risk_at_safe reqStd routesC4 = [candC4] := by
    simp only [origPool, routesC4, reqStd, List.take_succ_cons, List.take_nil,
      List.map_cons, List.map_nil]
    rw [scoreRoute_C4eval]
  have hsort : (sortByScore [candC4]).head? = some candC4 := by
    simp [sortByScore, List.insertionSort]
  simp only [route_core]
  rw [if_neg (by simp [routesC4]), hop]
  split
  · next hnone =>
    rw [hsort] at hnone
    cases hnone
  · next bestOrig2 hsome =>
    rw [hsort] at hsome
    injection hsome with hsome
    subst hsome
    rw [if_neg (by norm_num [reqStd, candC4])]

/-- Claim C4 (amended): in build_risk.py route_by_addresses returns
safety_score = the integer severity sum computed by severity_for_route on the
selected candidate's geometry; in main.py the same endpoint instead returns
round(risk_avg, 3) — the float average risk of the chosen candidate — and
performs no severity computation at all. -/
theorem C4_safety_score (ops : SphereOps) (riskAt : ℚ → ℚ → Window → ℚ)
    (sevIndex : SevIndex) (cell_m : ℚ) (req : ReqParams) (s e : ℚ × ℚ)
    (routes : List RouteData) (directions2 : List (ℚ × ℚ) → List RouteData)
    (best : Candidate) (pool : List Candidate) (log : Option (List (ℚ × ℚ)))
    (h : route_core ops riskAt req s e routes directions2 = .ok (best, pool, log)) :
    route_by_addresses ops riskAt sevIndex cell_m req s e routes directions2 =
      .ok ⟨best.geom.map (fun p => (p.2, p.1)), py_round3 best.dist_km,
        ((severity_for_route sevIndex cell_m best.geom best.dist_km req.time_window
          req.buffer_m).1 : ℚ)⟩ ∧
    route_by_addresses_main ops riskAt req s e routes directions2 =
      .ok ⟨best.geom.map (fun p => (p.2, p.1)), py_round3 best.dist_km,
        py_round3 best.r_avg⟩ := by
  constructor
  · simp only [route_by_addresses]
    rw [h]
  · simp only [route_by_addresses_main]
    rw [h]

theorem C4_witness :
    route_by_addresses opsZero risk_at_safe sevIndexEx 116 reqStd (0, 0) (1, 1)
        routesC4 (fun _ => []) =
      .ok ⟨candC4.geom.map (fun p => (p.2, p.1)), py_round3 candC4.dist_km,
        ((severity_for_route sevIndexEx 116 candC4.geom candC4.dist_km
          reqStd.time_window reqStd.buffer_m).1 : ℚ)⟩ ∧
    route_by_addresses_main opsZero risk_at_safe reqStd (0, 0) (1, 1) routesC4
        (fun _ => []) =
      .ok ⟨candC4.geom.map (fun p => (p.2, p.1)), py_round3 candC4.dist_km,
        py_round3 candC4.r_avg⟩ :=
  C4_safety_score opsZero risk_at_safe sevIndexEx 116 reqStd (0, 0) (1, 1) routesC4
    (fun _ => []) candC4 [candC4] none route_core_C4eval

/-- Claim C4 counterexample: on the main.py variant of the endpoint, the
request selecting the one-point route at the origin returns
safety_score = round(risk_avg, 3) = 0.0, while the integer severity sum of
severity_for_route on that same selected candidate (day window, buffer 40 m,
cell ≈116 m) is 7 — the response's safety score is not the severity sum. -/
theorem C4_counterexample :
    route_by_addresses_main opsZero risk_at_safe reqStd (0, 0) (1, 1) routesC4
        (fun _ => []) = .ok ⟨[(0, 0)], 1, 0⟩ ∧
    (severity_for_route sevIndexEx 116 candC4.geom candC4.dist_km reqStd.time_window
      reqStd.buffer_m).1 = 7 ∧
    ((0 : ℚ) ≠ ((7 : ℤ) : ℚ)) := by
  refine ⟨?_, ?_, by norm_num⟩
  · simp only [route_by_addresses_main]
    rw [route_core_C4eval]
    simp only [candC4, List.map_cons, List.map_nil]
    rw [Except.ok.injEq, RouteResp.mk.injEq]
    refine ⟨rfl, ?_, ?_⟩
    · norm_num [py_round3, round_half_even]
    · norm_num [py_round3, round_half_even]
  · have hbuf : reqStd.buffer_m = 40 := rfl
    have hwin : reqStd.time_window = Window.day := rfl
    have hgeom : candC4.geom = [(0, 0)] := rfl
    have hdist : candC4.dist_km = 1 := rfl
    have hceil : (⌈(40 : ℚ) / max 1 (116 : ℚ)⌉ : ℤ) = 1 := by
      rw [Int.ceil_eq_iff]
      constructor <;> norm_num
    rw [hbuf, hwin, hgeom, hdist,
      severity_single_zero_sample 40 (by rw [hceil]; norm_num)]

/-- Claim C6 (amended): severity_for_route enumerates, for each sampled point,
the grid cells in the square neighborhood of bin radius
r = max(1, ceil(buffer_m / max(1, approx_cell_size_m))) — the claim's formula
without the two clamps — of the sample's bin, and sums their integer
severities counting each cell at most once across the whole route; because r
is clamped to at least 1, as buffer_m → 0 the 3×3 neighborhood of each
sample's bin is still enumerated, not only the cells exactly under the
sampled points (see the counterexample). -/
theorem C6_severity_dedup (sevIndex : SevIndex) (cell_m : ℚ) (route : List (ℚ × ℚ))
    (dist_km : ℚ) (w : Window) (buffer_m : ℚ)
    (hr : route ≠ []) (hc : sevIndex.get w ≠ []) :
    severity_for_route sevIndex cell_m route dist_km w buffer_m =
      (sevSum (sevIndex.get w) (sevKeys (sevIndex.get w) cell_m route buffer_m),
       (sevSum (sevIndex.get w) (sevKeys (sevIndex.get w) cell_m route buffer_m) : ℚ) /
         max dist_km (1 / 1000000)) ∧
    (sevKeys (sevIndex.get w) cell_m route buffer_m).Nodup ∧
    (∀ k, k ∈ sevKeys (sevIndex.get w) cell_m route buffer_m ↔
      (k ∈ (((pyRange 0 route.length (max 1 (route.length / 300))).map
          (fun i => route.getD i (0, 0))).flatMap
          (neighborhoodKeys (max 1 ⌈buffer_m / max 1 cell_m⌉))) ∧
        (lookupKey k (sevIndex.get w)).isSome)) := by
  refine ⟨severity_for_route_spec sevIndex cell_m route dist_km w buffer_m hr hc,
    hitKeys_nodup _ _ [], ?_⟩
  intro k
  rw [sevKeys, hitKeys_mem_iff]
  simp

theorem C6_witness :
    severity_for_route sevIndexEx 116 [((0 : ℚ), (0 : ℚ))] 1 Window.day 40 =
      (sevSum (sevIndexEx.get Window.day)
        (sevKeys (sevIndexEx.get Window.day) 116 [((0 : ℚ), (0 : ℚ))] 40),
       (sevSum (sevIndexEx.get Window.day)
          (sevKeys (sevIndexEx.get Window.day) 116 [((0 : ℚ), (0 : ℚ))] 40) : ℚ) /
         max 1 (1 / 1000000)) ∧
    (sevKeys (sevIndexEx.get Window.day) 116 [((0 : ℚ), (0 : ℚ))] 40).Nodup ∧
    (∀ k, k ∈ sevKeys (sevIndexEx.get Window.day) 116 [((0 : ℚ), (0 : ℚ))] 40 ↔
      (k ∈ (((pyRange 0 ([((0 : ℚ), (0 : ℚ))] : List (ℚ × ℚ)).length
          (max 1 (([((0 : ℚ), (0 : ℚ))] : List (ℚ × ℚ)).length / 300))).map
          (fun i => ([((0 : ℚ), (0 : ℚ))] : List (ℚ × ℚ)).getD i (0, 0))).flatMap
          (neighborhoodKeys (max 1 ⌈(40 : ℚ) / max 1 (116 : ℚ)⌉))) ∧
        (lookupKey k (sevIndexEx.get Window.day)).isSome)) :=
  C6_severity_dedup sevIndexEx 116 [((0 : ℚ), (0 : ℚ))] 1 Window.day 40
    (by simp) (by simp [sevIndexEx, SevIndex.get])

/-- Claim C6 counterexample: with buffer_m = 0 the claimed radius
ceil(buffer_m / cell_size) is 0, yet the code clamps r = max(1, ⌈0/…⌉) = 1 and
still enumerates the 3×3 neighborhood: the severity-7 cell with key (1600, 0)
is adjacent to — not under — the single sample at the origin (whose own cell
key (0, 0) is absent from the index), and is nevertheless counted. -/
theorem C6_counterexample :
    (severity_for_route sevIndexEx 116 [(0, 0)] 1 Window.day 0).1 = 7 ∧
    (⌈(0 : ℚ) / max 1 (116 : ℚ)⌉ : ℤ) = 0 ∧
    (max 1 ⌈(0 : ℚ) / max 1 (116 : ℚ)⌉ : ℤ) = 1 ∧
    bin_for 0 0 = (0, 0) ∧ cell_key_from_bin 0 0 = (0, 0) ∧
    lookupKey (0, 0) (sevIndexEx.get Window.day) = none := by
  refine ⟨?_, by norm_num, by norm_num, ?_, ?_, by decide⟩
  · rw [severity_single_zero_sample 0 (by norm_num)]
  · unfold bin_for
    norm_num [CELL_DEG]
  · unfold cell_key_from_bin key6
    norm_num [round_half_even]
